import Mathlib

/-!
Formal model of `pam_recent.c` (a PAM session module that writes a
single `+addr` / `-addr` directive line to an iptables recent-list
pseudo-file under `/proc/net/xt_recent` or `/proc/net/ipt_recent`).

The C function `pam_sm_open_session` is embedded as a pure Lean
function over an explicit environment `Env` holding the external
oracles it consults: the resolver (`gethostbyname`), the filesystem
existence probe (`access(fname, F_OK)`), the PAM item store
(`pam_get_item(PAM_RHOST)`), and the openability of the target
pseudo-file (`fopen(fname, "w")`).  The function returns the PAM
result together with a trace of the externally observable events it
performed, in order: existence probes, resolver lookups, file opens
and file writes.

C byte strings are modelled as Lean `String`s; the constants involved
are ASCII, where characters and bytes coincide, and `strncasecmp` is
modelled by comparing `toLower` images of `take` prefixes.
-/

namespace PamRecent

/-- A byte of a resolved network address (`unsigned char` in C). -/
abbrev Byte := Fin 256

/-- Linux `AF_INET` address-family constant. -/
def AF_INET : Nat := 2

/-- Linux `AF_INET6` address-family constant. -/
def AF_INET6 : Nat := 10

/-- The `ACTION_REMOVE` literal `"-"` from `pam_recent.c`. -/
def ACTION_REMOVE : String := "-"

/-- The `ACTION_ADD` literal `"+"` from `pam_recent.c`. -/
def ACTION_ADD : String := "+"

/-- The `NAME` literal: the default recent-list name. -/
def NAME : String := "DEFAULT"

/-- The `LOCOLD` literal: legacy (`ipt_recent`) base directory. -/
def LOCOLD : String := "/proc/net/ipt_recent"

/-- The `LOCNEW` literal: new (`xt_recent`) base directory. -/
def LOCNEW : String := "/proc/net/xt_recent"

/-- Linux `PATH_MAX`: size of the `fname` buffer in the C source. -/
def PATH_MAX : Nat := 4096

/-- The relevant part of a C `struct hostent`: the address family
`h_addrtype` and the bytes of the first address `h_addr_list[0]`. -/
structure hostent where
  h_addrtype : Nat
  h_addr : List Byte
deriving DecidableEq

/-- The external world as seen by one invocation of the module:
`resolve` is `gethostbyname`; `pathExists` is `access(p, F_OK) == 0`;
`rhostItem` is the result of `pam_get_item(PAM_RHOST)` (`none` = PAM
error return, `some none` = item present but NULL, `some (some s)` =
host string `s`); `canOpen` is whether `fopen(p, "w")` succeeds. -/
structure Env where
  resolve : String → Option hostent
  pathExists : String → Bool
  rhostItem : Option (Option String)
  canOpen : String → Bool

/-- The distinct error conditions of `pam_sm_open_session`, each
corresponding to one `pam_syslog(LOG_ERR, ...)` site before a
`return PAM_SESSION_ERR`. -/
inductive Err where
  | argCount
  | invalidMode
  | getRhost
  | missingHost
  | resolution
  | conversion
  | openFail
deriving DecidableEq

/-- The PAM return value: `PAM_SUCCESS`, or `PAM_SESSION_ERR` tagged
with the logged error condition. -/
inductive SessionResult where
  | success
  | sessionErr (e : Err)
deriving DecidableEq

/-- Externally observable events of one invocation, in program order:
an `access` existence probe, a `gethostbyname` lookup, an `fopen`, or
an `fprintf` of one line. -/
inductive Event where
  | probe (path : String) (found : Bool)
  | lookup (host : String) (ok : Bool)
  | openF (path : String) (ok : Bool)
  | write (path : String) (line : String)
deriving DecidableEq

/-- Result of one invocation: the PAM return value and the event
trace. -/
structure RunOut where
  res : SessionResult
  trace : List Event
deriving DecidableEq

/-- ASCII lowercase of one character, as C `tolower` in the default
locale maps bytes. -/
def lowerChar (c : Char) : Char :=
  if 65 ≤ c.toNat ∧ c.toNat ≤ 90 then Char.ofNat (c.toNat + 32) else c

/-- The first `n` characters of a string (C prefix of length `n`). -/
def strTake (s : String) (n : Nat) : String :=
  String.mk (s.data.take n)

/-- The string with its first `n` characters removed (C pointer
arithmetic `s + n`). -/
def strDrop (s : String) (n : Nat) : String :=
  String.mk (s.data.drop n)

/-- ASCII-lowercased image of a string. -/
def strLower (s : String) : String :=
  String.mk (s.data.map lowerChar)

/-- `strchr(s, c) != NULL`: whether `s` contains the character. -/
def strContains (s : String) (c : Char) : Bool :=
  s.data.contains c

/-- `snprintf(fname, sizeof(fname), "%s/%s", base, dbname)`: the
concatenation truncated to `PATH_MAX - 1` characters (snprintf always
reserves one byte for the terminating NUL and silently truncates). -/
def mkPath (base dbname : String) : String :=
  String.mk ((base ++ "/" ++ dbname).data.take (PATH_MAX - 1))

/-- Target-path selection (lines 134-141 of the C source): probe the
new-style path with `access`; if it exists use it, otherwise fall back
to the legacy path unconditionally. -/
def selectTarget (pathExists : String → Bool) (dbname : String) : String :=
  if pathExists (mkPath LOCNEW dbname) then mkPath LOCNEW dbname
  else mkPath LOCOLD dbname

/-- Mode-argument parsing (lines 116-129): `"+"` means add
(`remove = false`), `"-"` means remove (`remove = true`), anything
else is an error. -/
def parseMode (a : String) : Option Bool :=
  if a = ACTION_ADD then some false
  else if a = ACTION_REMOVE then some true
  else none

/-- `strncasecmp(s, pre, strlen(pre)) == 0`, for ASCII `pre`: the
first `|pre|` characters of `s` equal `pre` up to case. -/
def cmpCI (s pre : String) : Bool :=
  strLower (strTake s pre.length) = strLower pre

/-- The manual IPv4-in-IPv6 extraction of lines 168-187, as a pure
string transformation: on a `"::"` prefix strip it and a following
case-insensitive `"ffff:"`; else on a case-insensitive `"0:0:0:0:0:"`
prefix strip it and then a following `"0:"`, or else a following
case-insensitive `"ffff:"`; otherwise no candidate. -/
def extractV4 (s : String) : Option String :=
  if strTake s 2 = "::" then
    let p := strDrop s 2
    some (if cmpCI p "ffff:" then strDrop p 5 else p)
  else if cmpCI s "0:0:0:0:0:" then
    let p := strDrop s 10
    some (if cmpCI p "0:" then strDrop p 2
          else if cmpCI p "ffff:" then strDrop p 5 else p)
  else none

/-- The resolution pipeline of lines 160-187, without the event
trace: try `gethostbyname` on the identifier; on failure, if the
identifier contains a colon and the extraction produces a candidate,
retry `gethostbyname` on the candidate. -/
def resolveHost (resolve : String → Option hostent) (rh : String) :
    Option hostent :=
  match resolve rh with
  | some h => some h
  | none =>
    if strContains rh ':' then
      match extractV4 rh with
      | some p => resolve p
      | none => none
    else none

/-- The resolution pipeline together with its lookup events. -/
def doResolve (resolve : String → Option hostent) (rh : String) :
    Option hostent × List Event :=
  match resolve rh with
  | some h => (some h, [.lookup rh true])
  | none =>
    if strContains rh ':' then
      match extractV4 rh with
      | some p =>
        match resolve p with
        | some h => (some h, [.lookup rh false, .lookup p true])
        | none => (none, [.lookup rh false, .lookup p false])
      | none => (none, [.lookup rh false])
    else (none, [.lookup rh false])

/-- Dotted-quad rendering of four byte values. -/
def dottedQuad (a b c d : Nat) : String :=
  Nat.repr a ++ "." ++ Nat.repr b ++ "." ++ Nat.repr c ++ "." ++ Nat.repr d

/-- One 16-bit group of an IPv6 address in lowercase hex. -/
def hex16 (n : Nat) : String :=
  String.mk (Nat.toDigits 16 n)

/-- The 16-bit groups of an IPv6 address byte string. -/
def v6Groups : List Byte → List String
  | hi :: lo :: rest => hex16 (hi.val * 256 + lo.val) :: v6Groups rest
  | _ => []

/-- Colon-separated join of the groups. -/
def joinColon : List String → String
  | [] => ""
  | [g] => g
  | g :: rest => g ++ ":" ++ joinColon rest

/-- Model of `inet_ntop(af, src, dst, size)` with a 128-byte buffer:
for `AF_INET` the dotted quad of the first four bytes; for `AF_INET6`
a colon-separated hex-group form (abstracting glibc's zero-run
compression, whose exact shape nothing here depends on); any other
family fails (`EAFNOSUPPORT`), as does an address too short to read. -/
def inet_ntop (af : Nat) (addr : List Byte) : Option String :=
  if af = AF_INET then
    match addr with
    | a :: b :: c :: d :: _ => some (dottedQuad a.val b.val c.val d.val)
    | _ => none
  else if af = AF_INET6 then
    if 16 ≤ addr.length then
      some (joinColon (v6Groups (addr.take 16)))
    else none
  else none

/-- The list name actually used: `argv[1]` when `argc == 2`, else the
default `NAME`. -/
def dbnameOf (args : List String) : String :=
  match args with
  | _ :: d :: _ => d
  | _ => NAME

/-- The single directive line written on success:
`fprintf(f, "%s%s\n", remove ? "-" : "+", address)`. -/
def directiveLine (remove : Bool) (address : String) : String :=
  (if remove then ACTION_REMOVE else ACTION_ADD) ++ address ++ "\n"

/-- The embedding of `pam_sm_open_session` (lines 101-217): argument
validation, list-name defaulting, target-path probe and selection,
`PAM_RHOST` retrieval, resolution with the IPv4-in-IPv6 fallback,
`inet_ntop` conversion, and the single-line write. -/
def pam_sm_open_session (env : Env) (args : List String) : RunOut :=
  match args with
  | [] => ⟨.sessionErr .argCount, []⟩
  | arg0 :: rest =>
    if 1 < rest.length then ⟨.sessionErr .argCount, []⟩
    else
      match parseMode arg0 with
      | none => ⟨.sessionErr .invalidMode, []⟩
      | some remove =>
        let dbname := dbnameOf (arg0 :: rest)
        let found := env.pathExists (mkPath LOCNEW dbname)
        let fname := selectTarget env.pathExists dbname
        let t0 : List Event := [.probe (mkPath LOCNEW dbname) found]
        match env.rhostItem with
        | none => ⟨.sessionErr .getRhost, t0⟩
        | some none => ⟨.sessionErr .missingHost, t0⟩
        | some (some rhostname) =>
          match doResolve env.resolve rhostname with
          | (none, evs) => ⟨.sessionErr .resolution, t0 ++ evs⟩
          | (some rhost, evs) =>
            match inet_ntop rhost.h_addrtype rhost.h_addr with
            | none => ⟨.sessionErr .conversion, t0 ++ evs⟩
            | some address =>
              if env.canOpen fname then
                ⟨.success,
                  t0 ++ evs ++ [.openF fname true,
                    .write fname (directiveLine remove address)]⟩
              else
                ⟨.sessionErr .openFail, t0 ++ evs ++ [.openF fname false]⟩

/-- The write events of a trace, as (path, line) pairs. -/
def writeOf : Event → Option (String × String)
  | .write p l => some (p, l)
  | _ => none

/-- All writes performed by a trace, in order. -/
def writesOf (t : List Event) : List (String × String) :=
  t.filterMap writeOf

/-- Whether an event is a resolver lookup. -/
def isLookup : Event → Bool
  | .lookup _ _ => true
  | _ => false

/-- Whether an event is an existence probe. -/
def isProbe : Event → Bool
  | .probe _ _ => true
  | _ => false

/-- Whether an event is a write. -/
def isWrite : Event → Bool
  | .write _ _ => true
  | _ => false

/-- Index of the first event satisfying a predicate. -/
def idxOf (p : Event → Bool) : List Event → Option Nat
  | [] => none
  | e :: t => if p e then some 0 else (idxOf p t).map (· + 1)

/-- Index of the first resolver lookup in a trace. -/
def lookupIdx (t : List Event) : Option Nat := idxOf isLookup t

/-- Index of the first existence probe in a trace. -/
def probeIdx (t : List Event) : Option Nat := idxOf isProbe t

/-- Index of the first write in a trace. -/
def writeIdx (t : List Event) : Option Nat := idxOf isWrite t

/-- Whether the first index strictly precedes the second (both must
exist). -/
def idxBefore (a b : Option Nat) : Bool :=
  match a, b with
  | some i, some j => i < j
  | _, _ => false

/-- The presentation-form address the pipeline produces for a host
identifier, when resolution and conversion both succeed. -/
def resolvedAddress (env : Env) (rh : String) : Option String :=
  (resolveHost env.resolve rh).bind fun h =>
    inet_ntop h.h_addrtype h.h_addr

/-- The lines written by an invocation, in order. -/
def writtenLines (out : RunOut) : List String :=
  (writesOf out.trace).map Prod.snd

/-- Case-sensitive "starts with", used to state the specification's
extraction rules. -/
def startsWithCS (s pre : String) : Bool :=
  pre.data.isPrefixOf s.data

/-- Case-insensitive "starts with", used to state the specification's
extraction rules. -/
def startsWithCI (s pre : String) : Bool :=
  (pre.data.map lowerChar).isPrefixOf (s.data.map lowerChar)

/-- The embedded-IPv4 extraction rules exactly as the specification
words them (a second definition, following the spec rather than the
source, to be compared with `extractV4`): on a leading `"::"` strip it
and a following case-insensitive `"ffff:"`; else on a leading
case-insensitive `"0:0:0:0:0:"` strip it and then a following `"0:"`,
or else a following case-insensitive `"ffff:"`; otherwise no
candidate. -/
def extractV4_spec (s : String) : Option String :=
  if startsWithCS s "::" then
    let r := strDrop s 2
    some (if startsWithCI r "ffff:" then strDrop r 5 else r)
  else if startsWithCI s "0:0:0:0:0:" then
    let r := strDrop s 10
    some (if startsWithCI r "0:" then strDrop r 2
          else if startsWithCI r "ffff:" then strDrop r 5 else r)
  else none

/-- A resolver knowing exactly the literal address `203.0.113.5`. -/
def resolveA : String → Option hostent := fun s =>
  if s = "203.0.113.5" then some ⟨AF_INET, [203, 0, 113, 5]⟩ else none

/-- A concrete environment: resolvable host `203.0.113.5`, no
new-style directory, every open succeeds. -/
def envA : Env :=
  ⟨resolveA, fun _ => false, some (some "203.0.113.5"), fun _ => true⟩

/-- A concrete environment whose `PAM_RHOST` item is the empty string
and whose resolver maps the empty string to `127.0.0.1`. -/
def envEmptyHost : Env :=
  ⟨fun s => if s = "" then some ⟨AF_INET, [127, 0, 0, 1]⟩ else none,
   fun _ => false, some (some ""), fun _ => true⟩

/-- A resolver that fails on every identifier. -/
def resolveNone : String → Option hostent := fun _ => none

/-- A list name long enough that the `PATH_MAX`-sized path buffer
cannot hold `LOCNEW ++ "/" ++ longName`. -/
def longName : String := String.mk (List.replicate 4076 'a')

/-! ### Basic lemmas about traces and the resolution pipeline -/

theorem writesOf_append (a b : List Event) :
    writesOf (a ++ b) = writesOf a ++ writesOf b :=
  List.filterMap_append a b writeOf

theorem writesOf_doResolve (r : String → Option hostent) (s : String) :
    writesOf (doResolve r s).2 = [] := by
  unfold doResolve
  repeat' split
  all_goals rfl

theorem fst_doResolve (r : String → Option hostent) (s : String) :
    (doResolve r s).1 = resolveHost r s := by
  unfold doResolve resolveHost
  cases hrs : r s with
  | some h => rfl
  | none =>
    by_cases hc : strContains s ':' = true
    · simp only [hc, if_true, reduceIte]
      cases hex : extractV4 s with
      | some p => cases hrp : r p <;> simp [hrp]
      | none => rfl
    · simp only [Bool.not_eq_true] at hc
      simp only [hc]
      rfl

theorem isPrefixOf_iff_take (p l : List Char) :
    p.isPrefixOf l = true ↔ l.take p.length = p := by
  induction p generalizing l with
  | nil => simp [List.isPrefixOf]
  | cons a as ih =>
    cases l with
    | nil => simp [List.isPrefixOf]
    | cons b bs =>
      simp only [List.isPrefixOf, Bool.and_eq_true, beq_iff_eq, ih,
        List.length_cons, List.take_succ_cons, List.cons.injEq]
      tauto

end PamRecent

namespace PamRecent

/-! ### Characterization of successful and failing invocations -/

/-- A successful invocation determines a host string in the item
store, a parsed mode, a resolved address, and exactly one directive
line written to the selected target path. -/
theorem success_characterization (env : Env) (args : List String)
    (h : (pam_sm_open_session env args).res = .success) :
    ∃ rh remove address,
      env.rhostItem = some (some rh) ∧
      parseMode (args.headD "") = some remove ∧
      resolvedAddress env rh = some address ∧
      writesOf (pam_sm_open_session env args).trace =
        [(selectTarget env.pathExists (dbnameOf args),
          directiveLine remove address)] := by
  unfold pam_sm_open_session at h ⊢
  cases args with
  | nil => simp at h
  | cons a0 rest =>
    by_cases hlen : 1 < rest.length
    · simp [hlen] at h
    · simp only [hlen, if_false, reduceIte] at h ⊢
      cases hpm : parseMode a0 with
      | none => simp [hpm] at h
      | some remove =>
        simp only [hpm] at h ⊢
        cases hr : env.rhostItem with
        | none => simp [hr] at h
        | some o =>
          cases o with
          | none => simp [hr] at h
          | some rh =>
            simp only [hr] at h ⊢
            cases hdr : doResolve env.resolve rh with
            | mk ores evs =>
              simp only [hdr] at h ⊢
              cases ores with
              | none => simp at h
              | some rhost =>
                cases hni : inet_ntop rhost.h_addrtype rhost.h_addr with
                | none => simp [hni] at h
                | some address =>
                  simp only [hni] at h ⊢
                  refine ⟨rh, remove, address, rfl, ?_, ?_, ?_⟩
                  · simpa using hpm
                  · unfold resolvedAddress
                    have h1 : resolveHost env.resolve rh = some rhost := by
                      rw [← fst_doResolve, hdr]
                    rw [h1]
                    simpa using hni
                  · by_cases hop :
                      env.canOpen (selectTarget env.pathExists
                        (dbnameOf (a0 :: rest))) = true
                    · simp only [hop, if_true, reduceIte] at h ⊢
                      have hevs : writesOf evs = [] := by
                        have hh := writesOf_doResolve env.resolve rh
                        rw [hdr] at hh
                        exact hh
                      rw [writesOf_append, writesOf_append, hevs]
                      rfl
                    · simp only [Bool.not_eq_true] at hop
                      simp [hop] at h

/-- A failing invocation writes nothing. -/
theorem failure_no_write (env : Env) (args : List String)
    (h : (pam_sm_open_session env args).res ≠ .success) :
    writesOf (pam_sm_open_session env args).trace = [] := by
  unfold pam_sm_open_session at h ⊢
  cases args with
  | nil => rfl
  | cons a0 rest =>
    by_cases hlen : 1 < rest.length
    · simp only [hlen, if_true, reduceIte]
      rfl
    · simp only [hlen, if_false, reduceIte] at h ⊢
      cases hpm : parseMode a0 with
      | none => rfl
      | some remove =>
        simp only [hpm] at h ⊢
        cases hr : env.rhostItem with
        | none => rfl
        | some o =>
          cases o with
          | none => rfl
          | some rh =>
            simp only [hr] at h ⊢
            cases hdr : doResolve env.resolve rh with
            | mk ores evs =>
              have hevs : writesOf evs = [] := by
                have hh := writesOf_doResolve env.resolve rh
                rw [hdr] at hh
                exact hh
              simp only [hdr] at h ⊢
              cases ores with
              | none =>
                rw [writesOf_append, hevs]
                rfl
              | some rhost =>
                cases hni : inet_ntop rhost.h_addrtype rhost.h_addr with
                | none =>
                  simp only [hni]
                  rw [writesOf_append, hevs]
                  rfl
                | some address =>
                  simp only [hni] at h ⊢
                  by_cases hop :
                    env.canOpen (selectTarget env.pathExists
                      (dbnameOf (a0 :: rest))) = true
                  · simp [hop] at h
                  · simp only [Bool.not_eq_true] at hop
                    simp only [hop, Bool.false_eq_true, if_false,
                      reduceIte]
                    rw [writesOf_append, writesOf_append, hevs]
                    rfl

end PamRecent

namespace PamRecent

theorem doResolve_shape (r : String → Option hostent) (s : String) :
    (doResolve r s).2 = [Event.lookup s true] ∨
    (doResolve r s).2 = [Event.lookup s false] ∨
    ∃ p b, (doResolve r s).2 = [Event.lookup s false, Event.lookup p b] := by
  unfold doResolve
  repeat' split
  all_goals first
    | exact Or.inl rfl
    | exact Or.inr (Or.inl rfl)
    | exact Or.inr (Or.inr ⟨_, _, rfl⟩)

theorem no_openF_doResolve (r : String → Option hostent) (s : String)
    (p : String) (b : Bool) :
    Event.openF p b ∉ (doResolve r s).2 := by
  rcases doResolve_shape r s with h | h | ⟨q, c, h⟩ <;> rw [h] <;> simp

theorem open_targets (env : Env) (args : List String) (p : String)
    (b : Bool)
    (h : Event.openF p b ∈ (pam_sm_open_session env args).trace) :
    p = selectTarget env.pathExists (dbnameOf args) := by
  unfold pam_sm_open_session at h
  cases args with
  | nil => simp at h
  | cons a0 rest =>
    by_cases hlen : 1 < rest.length
    · simp [hlen] at h
    · simp only [hlen, if_false, reduceIte] at h
      cases hpm : parseMode a0 with
      | none => simp [hpm] at h
      | some remove =>
        simp only [hpm] at h
        cases hr : env.rhostItem with
        | none => simp [hr] at h
        | some o =>
          cases o with
          | none => simp [hr] at h
          | some rh =>
            simp only [hr] at h
            cases hdr : doResolve env.resolve rh with
            | mk ores evs =>
              simp only [hdr] at h
              have hno : Event.openF p b ∉ evs := by
                have hh := no_openF_doResolve env.resolve rh p b
                rw [hdr] at hh
                exact hh
              cases ores with
              | none =>
                simp at h
                exact absurd h hno
              | some rhost =>
                cases hni : inet_ntop rhost.h_addrtype rhost.h_addr with
                | none =>
                  simp [hni] at h
                  exact absurd h hno
                | some address =>
                  simp only [hni] at h
                  by_cases hop :
                    env.canOpen (selectTarget env.pathExists
                      (dbnameOf (a0 :: rest))) = true
                  · simp only [hop, if_true, reduceIte] at h
                    simp at h
                    rcases h with h | h
                    · exact absurd h hno
                    · exact h.1
                  · simp only [Bool.not_eq_true] at hop
                    simp only [hop, Bool.false_eq_true, if_false,
                      reduceIte] at h
                    simp at h
                    rcases h with h | h
                    · exact absurd h hno
                    · exact h.1

end PamRecent

namespace PamRecent

theorem trace_head_probe (env : Env) (a0 : String) (rest : List String)
    (remove : Bool) (hlen : rest.length ≤ 1)
    (hpm : parseMode a0 = some remove) :
    (pam_sm_open_session env (a0 :: rest)).trace.head? =
      some (.probe (mkPath LOCNEW (dbnameOf (a0 :: rest)))
        (env.pathExists (mkPath LOCNEW (dbnameOf (a0 :: rest))))) := by
  unfold pam_sm_open_session
  have hlen2 : ¬ 1 < rest.length := by omega
  simp only [hlen2, if_false, reduceIte, hpm]
  repeat' split
  all_goals rfl

theorem success_trace_shape (env : Env) (args : List String)
    (h : (pam_sm_open_session env args).res = .success) :
    ∃ rh remove address,
      env.rhostItem = some (some rh) ∧
      (pam_sm_open_session env args).trace =
        .probe (mkPath LOCNEW (dbnameOf args))
            (env.pathExists (mkPath LOCNEW (dbnameOf args))) ::
          ((doResolve env.resolve rh).2 ++
            [.openF (selectTarget env.pathExists (dbnameOf args)) true,
             .write (selectTarget env.pathExists (dbnameOf args))
               (directiveLine remove address)]) := by
  unfold pam_sm_open_session at h ⊢
  cases args with
  | nil => simp at h
  | cons a0 rest =>
    by_cases hlen : 1 < rest.length
    · simp [hlen] at h
    · simp only [hlen, if_false, reduceIte] at h ⊢
      cases hpm : parseMode a0 with
      | none => simp [hpm] at h
      | some remove =>
        simp only [hpm] at h ⊢
        cases hr : env.rhostItem with
        | none => simp [hr] at h
        | some o =>
          cases o with
          | none => simp [hr] at h
          | some rh =>
            simp only [hr] at h ⊢
            cases hdr : doResolve env.resolve rh with
            | mk ores evs =>
              simp only [hdr] at h ⊢
              cases ores with
              | none => simp at h
              | some rhost =>
                cases hni : inet_ntop rhost.h_addrtype rhost.h_addr with
                | none => simp [hni] at h
                | some address =>
                  simp only [hni] at h ⊢
                  by_cases hop :
                    env.canOpen (selectTarget env.pathExists
                      (dbnameOf (a0 :: rest))) = true
                  · simp only [hop, if_true, reduceIte] at h ⊢
                    refine ⟨rh, remove, address, rfl, ?_⟩
                    simp [hdr, List.append_assoc]
                  · simp only [Bool.not_eq_true] at hop
                    simp [hop] at h

end PamRecent

namespace PamRecent

/-- C3: every invocation either succeeds having written exactly one
line, or fails returning an error with no write performed. -/
theorem C3_all_or_nothing (env : Env) (args : List String) :
    ((pam_sm_open_session env args).res = .success ∧
      ∃ w, writesOf (pam_sm_open_session env args).trace = [w]) ∨
    ((∃ e, (pam_sm_open_session env args).res = .sessionErr e) ∧
      writesOf (pam_sm_open_session env args).trace = []) := by
  by_cases hres : (pam_sm_open_session env args).res = .success
  · obtain ⟨rh, rm, addr, h1, h2, h3, hw⟩ :=
      success_characterization env args hres
    exact Or.inl ⟨hres, ⟨_, hw⟩⟩
  · refine Or.inr ⟨?_, failure_no_write env args hres⟩
    cases hcase : (pam_sm_open_session env args).res with
    | success => exact absurd hcase hres
    | sessionErr e => exact ⟨e, rfl⟩

/-- C1: on success exactly one line is written, the one-character mode
marker immediately followed by the resolved address and a newline, to
the selected target file; a missing second argument defaults the list
name to `"DEFAULT"`; and with `args = ["+"]` and resolvable identifier
`"203.0.113.5"` the DEFAULT list's file receives exactly the line
`"+203.0.113.5\n"`. -/
theorem C1_single_directive_line :
    (∀ env args, (pam_sm_open_session env args).res = .success →
      ∃ rh remove address,
        env.rhostItem = some (some rh) ∧
        parseMode (args.headD "") = some remove ∧
        resolvedAddress env rh = some address ∧
        writesOf (pam_sm_open_session env args).trace =
          [(selectTarget env.pathExists (dbnameOf args),
            directiveLine remove address)]) ∧
    (∀ env m,
      pam_sm_open_session env [m] = pam_sm_open_session env [m, NAME]) ∧
    (∀ env : Env,
      env.rhostItem = some (some "203.0.113.5") →
      env.resolve "203.0.113.5" = some ⟨AF_INET, [203, 0, 113, 5]⟩ →
      env.canOpen (selectTarget env.pathExists NAME) = true →
      (pam_sm_open_session env ["+"]).res = .success ∧
      writesOf (pam_sm_open_session env ["+"]).trace =
        [(selectTarget env.pathExists NAME, "+203.0.113.5\n")]) := by
  refine ⟨success_characterization, fun env m => rfl,
    fun env h1 h2 h3 => ?_⟩
  have hpm : parseMode "+" = some false := rfl
  have hni : inet_ntop AF_INET [(203 : Byte), 0, 113, 5] =
      some "203.0.113.5" := by decide
  have hline : directiveLine false "203.0.113.5" = "+203.0.113.5\n" := by
    decide
  have hdb : dbnameOf ["+"] = NAME := rfl
  constructor
  · simp only [pam_sm_open_session, doResolve, hpm, h1, h2, h3, hni, hdb,
      List.length_nil, hline, reduceIte]
    rw [if_neg (by decide)]
  · simp only [pam_sm_open_session, doResolve, hpm, h1, h2, h3, hni, hdb,
      List.length_nil, hline, reduceIte]
    rw [if_neg (by decide)]
    rfl

/-- C1 witness: a concrete environment exercising the concrete part
of the claim. -/
theorem C1_witness :
    (pam_sm_open_session envA ["+"]).res = .success ∧
    writesOf (pam_sm_open_session envA ["+"]).trace =
      [(selectTarget envA.pathExists NAME, "+203.0.113.5\n")] :=
  C1_single_directive_line.2.2 envA (by decide) (by decide) (by decide)

end PamRecent

namespace PamRecent

/-- C6: argument count outside one and two fails with the
argument-count error and writes nothing; a first argument other than
the add and remove literals (with a valid count) fails with the
invalid-mode error and writes nothing. -/
theorem C6_argument_validation :
    (∀ env args, args.length < 1 ∨ 2 < args.length →
      (pam_sm_open_session env args).res = .sessionErr .argCount ∧
      writesOf (pam_sm_open_session env args).trace = []) ∧
    (∀ env a0 rest, a0 ≠ ACTION_ADD → a0 ≠ ACTION_REMOVE →
      rest.length ≤ 1 →
      (pam_sm_open_session env (a0 :: rest)).res =
        .sessionErr .invalidMode ∧
      writesOf (pam_sm_open_session env (a0 :: rest)).trace = []) := by
  constructor
  · intro env args h
    cases args with
    | nil => exact ⟨rfl, rfl⟩
    | cons a0 rest =>
      rcases h with h | h
      · simp at h
      · have hlen : 1 < rest.length := by
          simp only [List.length_cons] at h
          omega
        simp only [pam_sm_open_session, hlen, if_true, reduceIte]
        exact ⟨trivial, rfl⟩
  · intro env a0 rest h1 h2 hlen
    have hpm : parseMode a0 = none := by
      unfold parseMode
      rw [if_neg h1, if_neg h2]
    have hlen2 : ¬ 1 < rest.length := by omega
    simp only [pam_sm_open_session, hlen2, if_false, reduceIte, hpm]
    exact ⟨trivial, rfl⟩

/-- C6 witness: three arguments give the argument-count error; an
unrecognized mode literal gives the invalid-mode error. -/
theorem C6_witness :
    ((pam_sm_open_session envA ["+", "X", "Y"]).res =
        .sessionErr .argCount ∧
      writesOf (pam_sm_open_session envA ["+", "X", "Y"]).trace = []) ∧
    ((pam_sm_open_session envA ["x"]).res = .sessionErr .invalidMode ∧
      writesOf (pam_sm_open_session envA ["x"]).trace = []) :=
  ⟨C6_argument_validation.1 envA ["+", "X", "Y"] (by decide),
   C6_argument_validation.2 envA "x" [] (by decide) (by decide)
     (by decide)⟩

/-- C7 counterexample: an invocation whose remote-host identifier is
the empty string is not rejected with the missing-host error; with a
resolver that maps the empty string to an address it succeeds and
writes a line, contradicting the claim that an empty identifier fails
with no write. -/
theorem C7_counterexample :
    (pam_sm_open_session envEmptyHost ["+"]).res = .success ∧
    (pam_sm_open_session envEmptyHost ["+"]).res ≠
      .sessionErr .missingHost ∧
    writesOf (pam_sm_open_session envEmptyHost ["+"]).trace =
      [("/proc/net/ipt_recent/DEFAULT", "+127.0.0.1\n")] := by
  decide

/-- C7 amended: only an absent (NULL) remote-host identifier is
rejected; the invocation then writes nothing, and with a valid
argument list the error is the missing-host error.  An empty-string
identifier is not treated as missing and proceeds to resolution. -/
theorem C7_missing_host :
    (∀ env args, env.rhostItem = some none →
      (pam_sm_open_session env args).res ≠ .success ∧
      writesOf (pam_sm_open_session env args).trace = []) ∧
    (∀ (env : Env) a0 rest remove, env.rhostItem = some none →
      rest.length ≤ 1 → parseMode a0 = some remove →
      (pam_sm_open_session env (a0 :: rest)).res =
        .sessionErr .missingHost) := by
  constructor
  · intro env args h
    have hns : (pam_sm_open_session env args).res ≠ .success := by
      intro hs
      obtain ⟨rh, rm, addr, h1, h2⟩ := success_characterization env args hs
      rw [h] at h1
      simp at h1
    exact ⟨hns, failure_no_write env args hns⟩
  · intro env a0 rest remove h hlen hpm
    have hlen2 : ¬ 1 < rest.length := by omega
    simp only [pam_sm_open_session, hlen2, if_false, reduceIte, hpm, h]

/-- C7 witness: a NULL identifier yields the missing-host error and
no write. -/
theorem C7_witness :
    (pam_sm_open_session ⟨resolveNone, fun _ => false, some none,
        fun _ => true⟩ ["-"]).res = .sessionErr .missingHost ∧
    writesOf (pam_sm_open_session ⟨resolveNone, fun _ => false,
        some none, fun _ => true⟩ ["-"]).trace = [] :=
  ⟨C7_missing_host.2 ⟨resolveNone, fun _ => false, some none,
      fun _ => true⟩ "-" [] true (by decide) (by decide) (by decide),
   (C7_missing_host.1 ⟨resolveNone, fun _ => false, some none,
      fun _ => true⟩ ["-"] (by decide)).2⟩

end PamRecent

namespace PamRecent

/-- C5: the target path is the new-style candidate exactly when a
filesystem entry exists there, and the legacy candidate otherwise,
unconditionally; the whole invocation is insensitive to the existence
of anything but the new-style candidate (in particular no error arises
from the selection even when neither candidate exists); and every file
open targets the selected path. -/
theorem C5_target_path_choice :
    (∀ pe db, pe (mkPath LOCNEW db) = true →
      selectTarget pe db = mkPath LOCNEW db) ∧
    (∀ pe db, pe (mkPath LOCNEW db) = false →
      selectTarget pe db = mkPath LOCOLD db) ∧
    (∀ (env : Env) pe2 args,
      env.pathExists (mkPath LOCNEW (dbnameOf args)) =
        pe2 (mkPath LOCNEW (dbnameOf args)) →
      pam_sm_open_session
          (Env.mk env.resolve pe2 env.rhostItem env.canOpen) args =
        pam_sm_open_session env args) ∧
    (∀ env args p b,
      Event.openF p b ∈ (pam_sm_open_session env args).trace →
      p = selectTarget env.pathExists (dbnameOf args)) := by
  refine ⟨?_, ?_, ?_, open_targets⟩
  · intro pe db h
    simp [selectTarget, h]
  · intro pe db h
    simp [selectTarget, h]
  · intro env pe2 args h
    have hsel : selectTarget pe2 (dbnameOf args) =
        selectTarget env.pathExists (dbnameOf args) := by
      unfold selectTarget
      rw [h]
    unfold pam_sm_open_session
    cases args with
    | nil => rfl
    | cons a0 rest =>
      simp only [hsel, ← h]

/-- C5 witness: concrete instances of all four conjuncts. -/
theorem C5_witness :
    selectTarget (fun _ => true) "DEFAULT" = mkPath LOCNEW "DEFAULT" ∧
    selectTarget (fun _ => false) "DEFAULT" = mkPath LOCOLD "DEFAULT" ∧
    pam_sm_open_session (Env.mk envA.resolve (fun _ => false)
        envA.rhostItem envA.canOpen) ["+"] =
      pam_sm_open_session envA ["+"] ∧
    "/proc/net/ipt_recent/DEFAULT" =
      selectTarget envA.pathExists (dbnameOf ["+"]) :=
  ⟨C5_target_path_choice.1 (fun _ => true) "DEFAULT" (by decide),
   C5_target_path_choice.2.1 (fun _ => false) "DEFAULT" (by decide),
   C5_target_path_choice.2.2.1 envA (fun _ => false) ["+"] (by decide),
   C5_target_path_choice.2.2.2 envA ["+"]
     "/proc/net/ipt_recent/DEFAULT" true (by decide)⟩

/-- C9: a successful invocation writes exactly one line, so running it
twice yields two identical directive lines; the line is a function of
the parsed mode and the resolved address alone. -/
theorem C9_deterministic_directive :
    (∀ env args, (pam_sm_open_session env args).res = .success →
      ∃ l, writtenLines (pam_sm_open_session env args) = [l] ∧
        writtenLines (pam_sm_open_session env args) ++
          writtenLines (pam_sm_open_session env args) = [l, l]) ∧
    (∀ env env2 args args2 rh rh2 md addr,
      env.rhostItem = some (some rh) →
      env2.rhostItem = some (some rh2) →
      parseMode (args.headD "") = some md →
      parseMode (args2.headD "") = some md →
      resolvedAddress env rh = some addr →
      resolvedAddress env2 rh2 = some addr →
      (pam_sm_open_session env args).res = .success →
      (pam_sm_open_session env2 args2).res = .success →
      writtenLines (pam_sm_open_session env args) =
        writtenLines (pam_sm_open_session env2 args2)) := by
  constructor
  · intro env args h
    obtain ⟨rh, rm, addr, h1, h2, h3, hw⟩ :=
      success_characterization env args h
    exact ⟨directiveLine rm addr,
      by simp [writtenLines, hw], by simp [writtenLines, hw]⟩
  · intro env env2 args args2 rh rh2 md addr h1 h1b h2 h2b h3 h3b hs hsb
    obtain ⟨rhA, rmA, addrA, hA1, hA2, hA3, hwA⟩ :=
      success_characterization env args hs
    obtain ⟨rhB, rmB, addrB, hB1, hB2, hB3, hwB⟩ :=
      success_characterization env2 args2 hsb
    rw [h1] at hA1
    obtain rfl : rhA = rh := (Option.some.inj (Option.some.inj hA1)).symm
    rw [h1b] at hB1
    obtain rfl : rhB = rh2 := (Option.some.inj (Option.some.inj hB1)).symm
    have emA : rmA = md := (Option.some.inj (h2.symm.trans hA2)).symm
    have emB : rmB = md := (Option.some.inj (h2b.symm.trans hB2)).symm
    have eaA : addrA = addr := (Option.some.inj (h3.symm.trans hA3)).symm
    have eaB : addrB = addr := (Option.some.inj (h3b.symm.trans hB3)).symm
    subst emA
    subst emB
    subst eaA
    subst eaB
    simp [writtenLines, hwA, hwB]

/-- C9 witness: the add action with the same resolved address through
two different argument spellings writes the same single line. -/
theorem C9_witness :
    writtenLines (pam_sm_open_session envA ["+"]) =
      writtenLines (pam_sm_open_session envA ["+", "DEFAULT"]) :=
  C9_deterministic_directive.2 envA envA ["+"] ["+", "DEFAULT"]
    "203.0.113.5" "203.0.113.5" false "203.0.113.5"
    (by decide) (by decide) (by decide) (by decide) (by decide)
    (by decide) (by decide) (by decide)

end PamRecent

namespace PamRecent

theorem startsWithCS_iff (s pre : String) :
    startsWithCS s pre = true ↔ strTake s pre.length = pre := by
  unfold startsWithCS strTake
  rw [isPrefixOf_iff_take]
  constructor
  · intro h
    cases pre with
    | mk d => simpa using congrArg String.mk h
  · intro h
    have := congrArg String.data h
    simpa using this

theorem startsWithCI_iff (s pre : String) :
    startsWithCI s pre = true ↔ cmpCI s pre = true := by
  unfold startsWithCI cmpCI strLower strTake
  rw [isPrefixOf_iff_take]
  rw [List.length_map, ← List.map_take]
  constructor
  · intro h
    simp only [decide_eq_true_eq]
    exact congrArg String.mk h
  · intro h
    simp only [decide_eq_true_eq] at h
    have := congrArg String.data h
    simpa using this

theorem extractV4_spec_eq (s : String) : extractV4_spec s = extractV4 s := by
  unfold extractV4_spec extractV4
  have e1 := startsWithCS_iff s "::"
  have e2 := startsWithCI_iff s "0:0:0:0:0:"
  by_cases h1 : strTake s 2 = "::"
  · rw [if_pos (e1.2 h1), if_pos h1]
    have e3 := startsWithCI_iff (strDrop s 2) "ffff:"
    dsimp only
    congr 1
    exact if_congr e3 rfl rfl
  · rw [if_neg (fun hh => h1 (e1.1 hh)), if_neg h1]
    by_cases h2 : cmpCI s "0:0:0:0:0:" = true
    · rw [if_pos (e2.2 h2), if_pos h2]
      have e4 := startsWithCI_iff (strDrop s 10) "0:"
      have e5 := startsWithCI_iff (strDrop s 10) "ffff:"
      dsimp only
      congr 1
      exact if_congr e4 rfl (if_congr e5 rfl rfl)
    · rw [if_neg (fun hh => h2 (e2.1 hh)), if_neg h2]

end PamRecent

namespace PamRecent

/-- C2: when primary resolution fails and the identifier contains a
colon, the pipeline retries resolution on exactly the candidate given
by the specification's extraction rules, with one retry lookup; when
no rule matches, resolution remains failed and no retry occurs. -/
theorem C2_v4_in_v6_fallback (resolve : String → Option hostent)
    (s : String) (hfail : resolve s = none)
    (hcolon : strContains s ':' = true) :
    resolveHost resolve s =
      (match extractV4_spec s with
       | some p => resolve p
       | none => none) ∧
    (∀ p, extractV4_spec s = some p →
      (doResolve resolve s).2 =
        [.lookup s false, .lookup p (resolve p).isSome]) ∧
    (extractV4_spec s = none →
      (doResolve resolve s).2 = [.lookup s false]) := by
  rw [extractV4_spec_eq]
  refine ⟨?_, ?_, ?_⟩
  · unfold resolveHost
    simp only [hfail, hcolon, if_true, reduceIte]
  · intro p hp
    unfold doResolve
    simp only [hfail, hcolon, if_true, reduceIte, hp]
    cases hrp : resolve p <;> simp [hrp]
  · intro hnone
    unfold doResolve
    simp only [hfail, hcolon, if_true, reduceIte, hnone]

/-- C2 witness: the fallback on `"::ffff:203.0.113.5"` with an
always-failing resolver retries on the extracted `"203.0.113.5"`. -/
theorem C2_witness :
    resolveHost resolveNone "::ffff:203.0.113.5" =
      (match extractV4_spec "::ffff:203.0.113.5" with
       | some p => resolveNone p
       | none => none) ∧
    (doResolve resolveNone "::ffff:203.0.113.5").2 =
      [.lookup "::ffff:203.0.113.5" false,
       .lookup "203.0.113.5" (resolveNone "203.0.113.5").isSome] :=
  ⟨(C2_v4_in_v6_fallback resolveNone "::ffff:203.0.113.5" (by decide)
      (by decide)).1,
   (C2_v4_in_v6_fallback resolveNone "::ffff:203.0.113.5" (by decide)
      (by decide)).2.1 "203.0.113.5" (by decide)⟩

theorem resolveHost_mem (r : String → Option hostent) (rh : String)
    (h : hostent) (hres : resolveHost r rh = some h) :
    ∃ q, r q = some h := by
  unfold resolveHost at hres
  cases hrs : r rh with
  | some h2 =>
    simp only [hrs] at hres
    exact ⟨rh, hrs.trans (congrArg some (Option.some.inj hres))⟩
  | none =>
    simp only [hrs] at hres
    by_cases hc : strContains rh ':' = true
    · simp only [hc, if_true, reduceIte] at hres
      cases hex : extractV4 rh with
      | some p =>
        simp only [hex] at hres
        exact ⟨p, hres⟩
      | none =>
        simp only [hex] at hres
        exact Option.noConfusion hres
    · simp only [Bool.not_eq_true] at hc
      simp [hc] at hres

end PamRecent

namespace PamRecent

/-- C4: an identifier that the resolver cannot resolve directly nor
through the extraction candidate makes the invocation fail with no
write (the operational content of a resolution yielding no embedded
IPv4); and under the gethostbyname contract that every resolver result
is an AF_INET entry, every line ever written carries a dotted-quad
IPv4 address, never an IPv6 presentation form. -/
theorem C4_ipv4_only :
    (∀ env args rh,
      env.rhostItem = some (some rh) →
      env.resolve rh = none →
      (∀ p, extractV4 rh = some p → env.resolve p = none) →
      (pam_sm_open_session env args).res ≠ .success ∧
      writesOf (pam_sm_open_session env args).trace = []) ∧
    (∀ (env : Env) args pl,
      (∀ q h, env.resolve q = some h → h.h_addrtype = AF_INET) →
      pl ∈ writesOf (pam_sm_open_session env args).trace →
      ∃ remove a b c d, a < 256 ∧ b < 256 ∧ c < 256 ∧ d < 256 ∧
        pl.2 = directiveLine remove (dottedQuad a b c d)) := by
  constructor
  · intro env args rh h1 h2 h3
    have hrn : resolveHost env.resolve rh = none := by
      unfold resolveHost
      simp only [h2]
      by_cases hc : strContains rh ':' = true
      · simp only [hc, if_true, reduceIte]
        cases hex : extractV4 rh with
        | some p => simp only [hex]; exact h3 p hex
        | none => simp only [hex]
      · simp only [Bool.not_eq_true] at hc
        simp [hc]
    have hns : (pam_sm_open_session env args).res ≠ .success := by
      intro hs
      obtain ⟨rh2, md, addr, hh1, hh2, hh3, hh4⟩ :=
        success_characterization env args hs
      rw [h1] at hh1
      have e : rh2 = rh := (Option.some.inj (Option.some.inj hh1)).symm
      subst e
      unfold resolvedAddress at hh3
      rw [hrn] at hh3
      simp at hh3
    exact ⟨hns, failure_no_write env args hns⟩
  · intro env args pl hres hmem
    by_cases hs : (pam_sm_open_session env args).res = .success
    · obtain ⟨rh, md, addr, h1, h2, h3, hw⟩ :=
        success_characterization env args hs
      rw [hw] at hmem
      simp at hmem
      unfold resolvedAddress at h3
      cases hrh : resolveHost env.resolve rh with
      | none =>
        rw [hrh] at h3
        simp at h3
      | some hst =>
        rw [hrh] at h3
        simp only [Option.some_bind] at h3
        obtain ⟨q, hq⟩ := resolveHost_mem env.resolve rh hst hrh
        have haf : hst.h_addrtype = AF_INET := hres q hst hq
        rw [haf] at h3
        unfold inet_ntop at h3
        rw [if_pos rfl] at h3
        rcases hl : hst.h_addr with _ | ⟨a, _ | ⟨b, _ | ⟨c, _ | ⟨d, t⟩⟩⟩⟩ <;>
          simp only [hl] at h3
        · exact Option.noConfusion h3
        · exact Option.noConfusion h3
        · exact Option.noConfusion h3
        · exact Option.noConfusion h3
        · refine ⟨md, a.val, b.val, c.val, d.val,
            a.isLt, b.isLt, c.isLt, d.isLt, ?_⟩
          rw [hmem]
          rw [← Option.some.inj h3]
    · rw [failure_no_write env args hs] at hmem
      simp at hmem

end PamRecent

namespace PamRecent

theorem resolveA_ipv4 :
    ∀ q h, resolveA q = some h → h.h_addrtype = AF_INET := by
  intro q h hq
  unfold resolveA at hq
  split at hq
  · cases Option.some.inj hq
    rfl
  · exact Option.noConfusion hq

/-- C4 witness: an unresolvable pure-IPv6 literal fails with no write,
and the concrete written line of the resolvable case is a dotted
quad. -/
theorem C4_witness :
    ((pam_sm_open_session ⟨resolveNone, fun _ => false,
        some (some "2001:db8::1"), fun _ => true⟩ ["+"]).res ≠
          .success ∧
      writesOf (pam_sm_open_session ⟨resolveNone, fun _ => false,
        some (some "2001:db8::1"), fun _ => true⟩ ["+"]).trace = []) ∧
    (∃ remove a b c d, a < 256 ∧ b < 256 ∧ c < 256 ∧ d < 256 ∧
      ("/proc/net/ipt_recent/DEFAULT", "+203.0.113.5\n").2 =
        directiveLine remove (dottedQuad a b c d)) :=
  ⟨C4_ipv4_only.1 ⟨resolveNone, fun _ => false,
      some (some "2001:db8::1"), fun _ => true⟩ ["+"] "2001:db8::1"
      (by decide) (by decide)
      (fun p hp => Option.noConfusion
        ((by decide : extractV4 "2001:db8::1" = none).symm.trans hp)),
   C4_ipv4_only.2 envA ["+"]
     ("/proc/net/ipt_recent/DEFAULT", "+203.0.113.5\n")
     resolveA_ipv4 (by decide)⟩

/-- C8 counterexample: a successful invocation in which the
path-selection existence probe is the first event (index 0) and the
first resolver lookup only follows it (index 1), so resolution does
not happen before selection of the target path. -/
theorem C8_counterexample :
    (pam_sm_open_session envA ["+"]).res = .success ∧
    probeIdx (pam_sm_open_session envA ["+"]).trace = some 0 ∧
    lookupIdx (pam_sm_open_session envA ["+"]).trace = some 1 ∧
    idxBefore (lookupIdx (pam_sm_open_session envA ["+"]).trace)
      (probeIdx (pam_sm_open_session envA ["+"]).trace) = false := by
  decide

/-- C8 amended: in every successful invocation the existence probe
precedes the first resolver lookup, which precedes the write. -/
theorem C8_probe_resolve_write_order (env : Env) (args : List String)
    (h : (pam_sm_open_session env args).res = .success) :
    idxBefore (probeIdx (pam_sm_open_session env args).trace)
      (lookupIdx (pam_sm_open_session env args).trace) = true ∧
    idxBefore (lookupIdx (pam_sm_open_session env args).trace)
      (writeIdx (pam_sm_open_session env args).trace) = true := by
  obtain ⟨rh, md, addr, hrh, htr⟩ := success_trace_shape env args h
  rw [htr]
  rcases doResolve_shape env.resolve rh with hs | hs | ⟨p, b, hs⟩ <;>
    rw [hs] <;>
    simp [probeIdx, lookupIdx, writeIdx, idxOf, idxBefore, isProbe,
      isLookup, isWrite]

/-- C8 witness: the concrete successful remove invocation has the
probe-lookup-write ordering. -/
theorem C8_witness :
    idxBefore (probeIdx (pam_sm_open_session envA ["-"]).trace)
      (lookupIdx (pam_sm_open_session envA ["-"]).trace) = true ∧
    idxBefore (lookupIdx (pam_sm_open_session envA ["-"]).trace)
      (writeIdx (pam_sm_open_session envA ["-"]).trace) = true :=
  C8_probe_resolve_write_order envA ["-"] (by decide)

end PamRecent

namespace PamRecent

/-- C10: a list name making the concatenation exceed the path-buffer
capacity does not fail path construction: the candidate is silently
truncated to `PATH_MAX - 1` characters, differs from the intended
path, and the existence probe and any subsequent open target the
truncated candidate. -/
theorem C10_silent_truncation (env : Env) (m db : String)
    (remove : Bool) (hm : parseMode m = some remove)
    (hlen : PATH_MAX - 1 < (LOCNEW ++ "/" ++ db).length) :
    (mkPath LOCNEW db).length = PATH_MAX - 1 ∧
    mkPath LOCNEW db ≠ LOCNEW ++ "/" ++ db ∧
    (pam_sm_open_session env [m, db]).trace.head? =
      some (.probe (mkPath LOCNEW db)
        (env.pathExists (mkPath LOCNEW db))) ∧
    (∀ p b, Event.openF p b ∈ (pam_sm_open_session env [m, db]).trace →
      p = selectTarget env.pathExists db) := by
  have hdata : (LOCNEW ++ "/" ++ db).length =
      (LOCNEW ++ "/" ++ db).data.length := rfl
  have hlen2 : (mkPath LOCNEW db).length = PATH_MAX - 1 := by
    show ((LOCNEW ++ "/" ++ db).data.take (PATH_MAX - 1)).length =
      PATH_MAX - 1
    rw [List.length_take]
    omega
  refine ⟨hlen2, ?_, ?_, ?_⟩
  · intro heq
    have h2 := congrArg String.length heq
    rw [hlen2] at h2
    omega
  · have h3 := trace_head_probe env m [db] remove (by simp) hm
    simpa [dbnameOf] using h3
  · intro p b hmem
    have h4 := open_targets env [m, db] p b hmem
    simpa [dbnameOf] using h4

theorem longName_overflow :
    PATH_MAX - 1 < (LOCNEW ++ "/" ++ longName).length := by
  rw [String.length_append, String.length_append]
  have h1 : longName.length = 4076 := by
    show (List.replicate 4076 'a').length = 4076
    rw [List.length_replicate]
  rw [h1]
  decide

/-- C10 witness: a 4076-character list name truncates the candidate
path to 4095 characters, differing from the intended path. -/
theorem C10_witness :
    (mkPath LOCNEW longName).length = PATH_MAX - 1 ∧
    mkPath LOCNEW longName ≠ LOCNEW ++ "/" ++ longName :=
  ⟨(C10_silent_truncation envA "+" longName false rfl
      longName_overflow).1,
   (C10_silent_truncation envA "+" longName false rfl
      longName_overflow).2.1⟩

end PamRecent
